import Mathlib

/-!
Shallow embedding of the `attendcard` room store:
`src/utils/lock.js` (KeyedLock) and the RoomStore module (rooms, durable
operation log, snapshots, presence), backed by the sqlite schema of
`src/db.js` (`room_ops` unique on `(room_id, version)`, `room_snapshots`).

Conventions of the embedding:
* JS objects become structures; JS `Map`s become association lists with
  JS-`Map` semantics (`mapSet` updates the first binding in place, else
  appends; `mapLookup` finds the first binding).
* sqlite tables become lists in insertion order; the prepared statements
  of the RoomStore constructor become list functions (`opInsert` for
  `INSERT OR REPLACE`, `snapshotLatest` for `ORDER BY version DESC LIMIT 1`,
  `opsAfter` for `WHERE version > ? ORDER BY version ASC`).
* Thrown errors become `Except`/`Option` results; since a JS method throw
  leaves the mutations already made to `this` in place, every stateful
  method returns the store next to its result.
* `Date.now()` and `new Date(now).toISOString()` become explicit `now`
  and `nowIso` arguments.
* `KeyedLock.withKey` serializes the critical sections per room.  The
  lock is NOT reentrant: the methods that acquire it at most once
  (`initRoom` via `getRoomState`, `resetRoom`, `clearPresence`,
  `prunePresence`, `getPresence`) complete and are modelled as the
  atomic run of their critical-section body.  `applyOperation`,
  `saveSnapshot` and `updatePresence`, however, do
  `await this.initRoom(roomId)` INSIDE their own `withKey(roomId, ...)`
  critical section, and `initRoom` acquires `withKey(roomId, ...)`
  again: the inner run is chained after the still-pending outer run
  while the outer run settles only once the body (awaiting the inner
  run) returns — a dependency cycle, so those calls never settle.  The
  promise-chain mechanics is modelled by `Chain`/`withKey`/`execOrder`,
  settlement by `Settles`/`nestedAcquisitionDeps` (the deadlock is
  proved in `nestedAcquisition_deadlocks`), and the data semantics the
  deadlocked bodies specify past the nested await is recorded by the
  clearly named `applyOperationBody` and `updatePresenceBody`.
* `deepClone` is a JSON round trip in the source, which on plain data is
  the identity on values; object identity (aliasing) is modelled
  separately with an explicit heap (`StoreH`).
-/

namespace AttendCard

/-- JS `Map.prototype.get`: first binding for the key, if any. -/
def mapLookup {α : Type} : List (String × α) → String → Option α
  | [], _ => none
  | p :: rest, k => if p.1 = k then some p.2 else mapLookup rest k

/-- JS `Map.prototype.set`: update the first binding in place, else append. -/
def mapSet {α : Type} : List (String × α) → String → α → List (String × α)
  | [], k, v => [(k, v)]
  | p :: rest, k, v => if p.1 = k then (k, v) :: rest else p :: mapSet rest k v

/-- A card of a room board: `{ id, zone }`. -/
structure Card where
  id : String
  zone : String
deriving Repr, DecidableEq

/-- In-memory room state: `{ id, version, cards }`. -/
structure RoomState where
  id : String
  version : Nat
  cards : List Card
deriving Repr, DecidableEq

/-- A persisted move operation, as built in `applyOperation`:
`{ type: 'move', cardId, toZone, version }`. -/
structure MoveOp where
  type : String
  cardId : String
  toZone : String
  version : Nat
deriving Repr, DecidableEq

/-- A client-submitted operation.  `clientV = none` models a missing or
non-numeric `clientV` (the source checks `typeof op.clientV !== 'number'`). -/
structure ClientOp where
  type : String
  cardId : String
  toZone : String
  clientV : Option Int
deriving Repr, DecidableEq

/-- A row of `room_ops`: `(room_id, version, op_json)`. -/
structure LogEntry where
  roomId : String
  version : Nat
  op : MoveOp
deriving Repr, DecidableEq

/-- A row of `room_snapshots`: `(room_id, version, state_json)`. -/
structure Snapshot where
  roomId : String
  version : Nat
  state : RoomState
deriving Repr, DecidableEq

/-- The template directory: per-room template files named after the room
id, plus the fallback `default-room.json`. -/
structure TemplateDir where
  templates : List (String × RoomState)
  defaultTemplate : RoomState
deriving Repr, DecidableEq

/-- A presence entry: `{ clientId, holding, ts, updatedAt }`. -/
structure PresenceEntry where
  clientId : String
  holding : Option String
  ts : String
  updatedAt : Nat
deriving Repr, DecidableEq

/-- The serialized presence shape: only `clientId`, `holding`, `ts`. -/
structure PresencePublic where
  clientId : String
  holding : Option String
  ts : String
deriving Repr, DecidableEq

/-- The payload of a presence update: optional `holding` and `ts`. -/
structure PresencePayload where
  holding : Option String
  ts : Option String
deriving Repr, DecidableEq

/-- The mutable fields of a `RoomStore` instance, together with the two
sqlite tables it reads and writes (timers are omitted: no claim touches
them). -/
structure Store where
  rooms : List (String × RoomState)
  logEntries : List LogEntry
  snapshots : List Snapshot
  presence : List (String × List (String × PresenceEntry))
deriving Repr, DecidableEq

/-- The errors `applyOperation` can throw. -/
inductive OpError where
  | initFailed
  | unsupportedType (t : String)
  | clientVRequired
  | versionConflict (serverVersion : Nat) (state : RoomState)
  | cardNotFound (cardId : String)
deriving Repr, DecidableEq

/-- The success result of `applyOperation`: `{ delta, version, state }`. -/
structure ApplyResult where
  delta : MoveOp
  version : Nat
  state : RoomState
deriving Repr, DecidableEq

/-- `PRESENCE_STALE_MS = 30 * 1000`. -/
def PRESENCE_STALE_MS : Nat := 30 * 1000

/-- `deepClone` is `JSON.parse(JSON.stringify(obj))`: on plain data it
preserves the value exactly (it only breaks object identity, which is
modelled by the explicit heap below). -/
def deepClone (st : RoomState) : RoomState := st

/-- `state.cards.find(c =&gt; c.id === cardId)` followed by the in-place
`card.zone = toZone`: only the first card with the id is updated. -/
def setCardZone : List Card → String → String → List Card
  | [], _, _ => []
  | c :: rest, cardId, toZone =>
    if c.id = cardId then { c with zone := toZone } :: rest
    else c :: setCardZone rest cardId toZone

/-- `applyMoveOperation(state, op)`: throws (`none`) if no card matches
`op.cardId`; otherwise sets the card's zone and `state.version = op.version`. -/
def applyMoveOperation (state : RoomState) (op : MoveOp) : Option RoomState :=
  match state.cards.find? (fun c => c.id = op.cardId) with
  | none => none
  | some _ =>
    some { state with
      cards := setCardZone state.cards op.cardId op.toZone,
      version := op.version }

/-- `room_ops` rows of one room, in table order. -/
def entriesFor (log : List LogEntry) (roomId : String) : List LogEntry :=
  log.filter (fun e => e.roomId = roomId)

/-- `INSERT OR REPLACE INTO room_ops(room_id, version, op_json)`: the
conflicting row (same `(room_id, version)`) is deleted, the new row
appended. -/
def opInsert (log : List LogEntry) (roomId : String) (version : Nat)
    (op : MoveOp) : List LogEntry :=
  (log.filter (fun e => ¬ (e.roomId = roomId ∧ e.version = version))) ++
    [{ roomId := roomId, version := version, op := op }]

/-- Insertion step of the `ORDER BY version ASC` sort. -/
def insertByVersion (e : LogEntry) : List LogEntry → List LogEntry
  | [] => [e]
  | x :: xs =>
    if e.version ≤ x.version then e :: x :: xs else x :: insertByVersion e xs

/-- Stable sort by ascending `version` (the `ORDER BY version ASC`). -/
def sortByVersion (l : List LogEntry) : List LogEntry :=
  l.foldr insertByVersion []

/-- `SELECT version, op_json FROM room_ops WHERE room_id = ? AND
version > ? ORDER BY version ASC`. -/
def opsAfter (log : List LogEntry) (roomId : String) (baseVersion : Nat) :
    List LogEntry :=
  sortByVersion ((entriesFor log roomId).filter (fun e => baseVersion < e.version))

/-- `SELECT state_json, version FROM room_snapshots WHERE room_id = ?
ORDER BY version DESC LIMIT 1` (ties on `version`, which sqlite leaves
unspecified, resolve to the most recently inserted row). -/
def snapshotLatest (snaps : List Snapshot) (roomId : String) : Option Snapshot :=
  (snaps.filter (fun sn => sn.roomId = roomId)).foldl
    (fun acc sn =>
      match acc with
      | none => some sn
      | some best => if best.version ≤ sn.version then some sn else some best)
    none

/-- `loadTemplate(roomId)`: the room-specific template if its file exists,
else the default template; the parsed copy gets `state.id = roomId`. -/
def loadTemplate (dir : TemplateDir) (roomId : String) : RoomState :=
  let t := (mapLookup dir.templates roomId).getD dir.defaultTemplate
  { t with id := roomId }

/-- The baseline `initRoom` replays from: the latest snapshot's state, or
the template when the room has no snapshot. -/
def baseState (dir : TemplateDir) (snaps : List Snapshot) (roomId : String) :
    RoomState :=
  match snapshotLatest snaps roomId with
  | some snap => snap.state
  | none => loadTemplate dir roomId

/-- The replay loop of `initRoom`: `applyMoveOperation` on each fetched
row in order; a missing card aborts the whole initialization (`none`). -/
def replay (base : RoomState) : List LogEntry → Option RoomState
  | [] => some base
  | e :: rest =>
    match applyMoveOperation base e.op with
    | none => none
    | some st => replay st rest

/-- `initRoom(roomId)`: return the cached state if present, else load the
baseline, replay the log rows past it, and cache the result.  The cached
object itself is returned (no clone).  Returns the store next to the
result because a replay failure still leaves prior mutations in place. -/
def initRoom (dir : TemplateDir) (s : Store) (roomId : String) :
    Store × Option RoomState :=
  match mapLookup s.rooms roomId with
  | some st => (s, some st)
  | none =>
    match replay (baseState dir s.snapshots roomId)
        (opsAfter s.logEntries roomId (baseState dir s.snapshots roomId).version) with
    | none => (s, none)
    | some st => ({ s with rooms := mapSet s.rooms roomId st }, some st)

/-- `getRoomState(roomId)`: `deepClone(await this.initRoom(roomId))`. -/
def getRoomState (dir : TemplateDir) (s : Store) (roomId : String) :
    Store × Option RoomState :=
  match initRoom dir s roomId with
  | (s1, none) => (s1, none)
  | (s1, some st) => (s1, some (deepClone st))

/-- The body of `applyOperation` after `initRoom` produced the cached
state `st`: type check, `clientV` checks, version conflict check, then
the move is applied, the row appended, and the result returned. -/
def applyOperationAt (s1 : Store) (roomId : String) (op : ClientOp)
    (st : RoomState) : Store × Except OpError ApplyResult :=
  if op.type ≠ "move" then (s1, Except.error (OpError.unsupportedType op.type))
  else
    match op.clientV with
    | none => (s1, Except.error OpError.clientVRequired)
    | some cv =>
      if cv ≠ (st.version : Int) then
        (s1, Except.error (OpError.versionConflict st.version (deepClone st)))
      else
        let serverVersion := st.version + 1
        let mop : MoveOp :=
          { type := "move", cardId := op.cardId, toZone := op.toZone,
            version := serverVersion }
        match applyMoveOperation st mop with
        | none => (s1, Except.error (OpError.cardNotFound op.cardId))
        | some st2 =>
          ({ s1 with
              rooms := mapSet s1.rooms roomId st2,
              logEntries := opInsert s1.logEntries roomId serverVersion mop },
           Except.ok { delta := mop, version := serverVersion, state := deepClone st2 })

/-- The intended result of `applyOperation(roomId, op)`: `initRoom`'s
reconstruction followed by the critical-section body (type check,
`clientV` checks, conflict check, move, log append, result).  In the
source this call NEVER settles: the body's first step,
`await this.initRoom(roomId)`, re-acquires the same non-reentrant
per-room lock inside the already-held critical section, so the promise
chain deadlocks (proved in `nestedAcquisition_deadlocks`).  This
definition records the data semantics the body specifies past that
await — what the spec ascribes to the operation and what the code would
compute were the lock reentrant — and is used to state what each claim
expects against what the code actually does. -/
def applyOperationBody (dir : TemplateDir) (s : Store) (roomId : String)
    (op : ClientOp) : Store × Except OpError ApplyResult :=
  match initRoom dir s roomId with
  | (s1, none) => (s1, Except.error OpError.initFailed)
  | (s1, some st) => applyOperationAt s1 roomId op st

/-- `resetRoom(roomId)`: fresh template, delete the room's `room_ops` and
`room_snapshots` rows, insert one snapshot at the template's baseline
version, replace the cached state, clear the room's presence. -/
def resetRoom (dir : TemplateDir) (s : Store) (roomId : String) :
    Store × RoomState :=
  ({ rooms := mapSet s.rooms roomId (loadTemplate dir roomId),
     logEntries := s.logEntries.filter (fun e => ¬ e.roomId = roomId),
     snapshots :=
       (s.snapshots.filter (fun sn => ¬ sn.roomId = roomId)) ++
         [{ roomId := roomId, version := (loadTemplate dir roomId).version,
            state := loadTemplate dir roomId }],
     presence := mapSet s.presence roomId [] },
   deepClone (loadTemplate dir roomId))

/-- JS `x || null` on an optional string: `''` is falsy. -/
def jsOrNull : Option String → Option String
  | none => none
  | some s => if s = "" then none else some s

/-- JS `x || d` on an optional string: `''` is falsy. -/
def jsOrDefault (x : Option String) (d : String) : String :=
  match x with
  | none => d
  | some s => if s = "" then d else s

/-- One mapped element of `serializePresence`: `{ clientId, holding, ts }`. -/
def serializeEntry (e : PresenceEntry) : PresencePublic :=
  { clientId := e.clientId, holding := jsOrNull e.holding, ts := e.ts }

/-- `serializePresence(iterable)` over the map's values. -/
def serializePresence (entries : List PresenceEntry) : List PresencePublic :=
  entries.map serializeEntry

/-- The intended result of `updatePresence(roomId, clientId, payload)`
(`none` means the inner `initRoom` threw before presence was touched).
Like `applyOperation`, the source method awaits `initRoom`'s nested
acquisition of the same key inside its own critical section and never
settles (`nestedAcquisition_deadlocks`); this definition records the
body's data semantics past that await. -/
def updatePresenceBody (dir : TemplateDir) (s : Store) (roomId clientId : String)
    (payload : PresencePayload) (now : Nat) (nowIso : String) :
    Store × Option (List PresencePublic) :=
  match initRoom dir s roomId with
  | (s1, none) => (s1, none)
  | (s1, some _) =>
    let m := (mapLookup s1.presence roomId).getD []
    let entry : PresenceEntry :=
      { clientId := clientId, holding := jsOrNull payload.holding,
        ts := jsOrDefault payload.ts nowIso, updatedAt := now }
    let m2 := mapSet m clientId entry
    ({ s1 with presence := mapSet s1.presence roomId m2 },
     some (serializePresence (m2.map Prod.snd)))

/-- `clearPresence(roomId, clientId)`. -/
def clearPresence (s : Store) (roomId clientId : String) :
    Store × List PresencePublic :=
  match mapLookup s.presence roomId with
  | none => (s, [])
  | some m =>
    let m2 := m.filter (fun p => ¬ p.1 = clientId)
    ({ s with presence := mapSet s.presence roomId m2 },
     serializePresence (m2.map Prod.snd))

/-- `prunePresence(roomId)`: delete every entry with
`now - entry.updatedAt > PRESENCE_STALE_MS` (strict). -/
def prunePresence (s : Store) (roomId : String) (now : Nat) :
    Store × List PresencePublic :=
  match mapLookup s.presence roomId with
  | none => (s, [])
  | some m =>
    let m2 := m.filter (fun p => ¬ (now - p.2.updatedAt > PRESENCE_STALE_MS))
    ({ s with presence := mapSet s.presence roomId m2 },
     serializePresence (m2.map Prod.snd))

/-- `getPresence(roomId)`: read-only serialization of the room's map. -/
def getPresence (s : Store) (roomId : String) : List PresencePublic :=
  serializePresence (((mapLookup s.presence roomId).getD []).map Prod.snd)

/-- A sequence of intended `applyOperation` results against one room,
each threaded through the store whether it succeeds or throws. -/
def runOps (dir : TemplateDir) (roomId : String) :
    Store → List ClientOp → Store
  | s, [] => s
  | s, op :: rest => runOps dir roomId (applyOperationBody dir s roomId op).1 rest

/-- The spec's per-room invariant at a given cached state `st`:
every log row's version is at most `st.version`, `st.version` is attained
when rows exist (so it is the highest log version), the baseline is not
past `st`, and replaying the rows past the baseline reproduces `st`. -/
def roomInvAt (dir : TemplateDir) (s : Store) (roomId : String)
    (st : RoomState) : Prop :=
  (∀ e ∈ entriesFor s.logEntries roomId, e.version ≤ st.version) ∧
  (entriesFor s.logEntries roomId ≠ [] →
    ∃ e ∈ entriesFor s.logEntries roomId, e.version = st.version) ∧
  (baseState dir s.snapshots roomId).version ≤ st.version ∧
  replay (baseState dir s.snapshots roomId)
      (opsAfter s.logEntries roomId (baseState dir s.snapshots roomId).version)
    = some st

/-- The spec's per-room invariant: the room is cached and `roomInvAt`
holds of the cached state. -/
def roomInv (dir : TemplateDir) (s : Store) (roomId : String) : Prop :=
  ∃ st, mapLookup s.rooms roomId = some st ∧ roomInvAt dir s roomId st

/-! ## KeyedLock (src/utils/lock.js)

A promise chain as `withKey` builds it.  `Chain.seq prev t` is
`prev.catch(noop).then(runTask t)`: task `t` starts only once every task
of `prev` has settled, and the `catch` swallows a failure of `prev`, so
`t` runs and its own outcome is what the chain settles with.  Task
bodies are identified by numeric ids; `outcomes` maps an id to the
settlement of its body.  The `finally` cleanup of `withKey` only removes
a key whose recorded tail has fully drained, after which the key starts
over from `Chain.resolved`, which is where a fresh key starts anyway; the
submissions modelled here target the live chain. -/

/-- A promise chain over task ids, as built by `withKey`. -/
inductive Chain where
  | resolved : Chain
  | seq (prev : Chain) (task : Nat) : Chain
deriving Repr, DecidableEq

/-- The order in which the tasks of a chain run: `.then` sequencing means
all of `prev` strictly before `task`, one at a time. -/
def execOrder : Chain → List Nat
  | Chain.resolved => []
  | Chain.seq prev t => execOrder prev ++ [t]

/-- What awaiting a chain delivers: the outcome of its own last task
(the `catch` discarded any earlier failure), or a unit value for the
initial `Promise.resolve()`. -/
def chainResult (outcomes : Nat → Except String Nat) : Chain → Except String Nat
  | Chain.resolved => Except.ok 0
  | Chain.seq _ t => outcomes t

/-- `withKey(key, fn)`: read the current tail (or a resolved promise),
chain the task after it, record the new tail; the caller awaits the
returned chain. -/
def withKey (locks : List (String × Chain)) (key : String) (task : Nat) :
    List (String × Chain) × Chain :=
  let current := (mapLookup locks key).getD Chain.resolved
  let run := Chain.seq current task
  (mapSet locks key run, run)

/-- A burst of `withKey` submissions, in submission order. -/
def submitAll : List (String × Chain) → List (String × Nat) →
    List (String × Chain)
  | locks, [] => locks
  | locks, (k, t) :: rest => submitAll (withKey locks k t).1 rest

/-- Settlement of a promise graph: `deps p` lists the promises `p` waits
for, and a promise settles exactly when everything it waits for settles
(after finitely many microtask steps — hence the least fixed point of an
inductive predicate; a promise on a dependency cycle never settles). -/
inductive Settles (deps : Nat → List Nat) : Nat → Prop where
  | mk (p : Nat) (h : ∀ q ∈ deps p, Settles deps q) : Settles deps p

/-- The promise graph of one `applyOperation(roomId, op)` call arriving
on an idle room chain — the composition of `withKey` (lock.js lines
7-13) with the nested `await this.initRoom(roomId)` of the store
(applyOperation wraps its body in `withKey(roomId, ...)` and the body's
first step calls `initRoom`, which itself calls
`this.lock.withKey(roomId, ...)`):

* node 0 — the idle tail `Promise.resolve()`;
* node 1 — the outer `run = current.catch(noop).then(() => fn())`
  recorded as the key's tail: settles only after node 0 and the outer
  body (node 2) settle;
* node 2 — the outer critical-section body, which immediately does
  `await this.initRoom(roomId)`: settles only after the awaited inner
  run (node 3) settles;
* node 3 — the inner `run` built by `initRoom`'s `withKey` on the SAME
  key: its `current` is the recorded tail, node 1, still pending, so it
  settles only after node 1 and the inner body (node 4) settle;
* node 4 — `initRoom`'s own critical-section body, which completes on
  its own.

Nodes 1 → 2 → 3 → 1 form a cycle, so the call never settles.
`updatePresence` and `saveSnapshot` build the same graph, since each
awaits `this.initRoom(roomId)` inside `withKey(roomId, ...)`. -/
def nestedAcquisitionDeps : Nat → List Nat
  | 0 => []
  | 1 => [0, 2]
  | 2 => [3]
  | 3 => [1, 4]
  | _ => []

/-! ## Object identity (aliasing) model

`deepClone` only matters through object identity, so the copying
behaviour of `initRoom` and `getRoomState` is modelled with an explicit
heap: room states live in numbered cells, `this.rooms` maps a room id to
a cell, and an external caller mutates through the cell it was handed. -/

/-- A heap of room-state objects; the address of a cell is its index. -/
structure StoreH where
  heap : List RoomState
  rooms : List (String × Nat)
  logEntries : List LogEntry
  snapshots : List Snapshot
deriving Repr, DecidableEq

/-- Dereference an address. -/
def readAddr (heap : List RoomState) (addr : Nat) : Option RoomState :=
  heap[addr]?

/-- Mutate the object at an address in place. -/
def writeAddr (heap : List RoomState) (addr : Nat) (v : RoomState) :
    List RoomState :=
  heap.set addr v

/-- `initRoom` in the heap model: a cached room's own cell address is
returned as-is (the source returns the cached object, not a copy); a
fresh room's state is allocated and its cell both cached and returned. -/
def initRoomH (dir : TemplateDir) (s : StoreH) (roomId : String) :
    StoreH × Option Nat :=
  match mapLookup s.rooms roomId with
  | some addr => (s, some addr)
  | none =>
    match replay (baseState dir s.snapshots roomId)
        (opsAfter s.logEntries roomId (baseState dir s.snapshots roomId).version) with
    | none => (s, none)
    | some st =>
      ({ s with heap := s.heap ++ [st], rooms := mapSet s.rooms roomId s.heap.length },
       some s.heap.length)

/-- `getRoomState` in the heap model: `deepClone` allocates a fresh
object with the same value and returns its cell. -/
def getRoomStateH (dir : TemplateDir) (s : StoreH) (roomId : String) :
    StoreH × Option Nat :=
  match initRoomH dir s roomId with
  | (s1, none) => (s1, none)
  | (s1, some addr) =>
    match readAddr s1.heap addr with
    | none => (s1, none)
    | some v => ({ s1 with heap := s1.heap ++ [v] }, some s1.heap.length)

/-! ## Sample data used by the concrete witnesses -/

/-- The card of the spec's concrete scenario. -/
def benchCard : Card := { id := "c1", zone := "bench" }

/-- The template of the spec's concrete scenario. -/
def sampleTemplate : RoomState := { id := "", version := 0, cards := [benchCard] }

/-- A template directory with only the default template. -/
def sampleDir : TemplateDir :=
  { templates := [], defaultTemplate := sampleTemplate }

/-- Room `R1` as first loaded from the template. -/
def sampleState : RoomState := { id := "R1", version := 0, cards := [benchCard] }

/-- A store in which `R1` has just been initialized from the template. -/
def sampleStore : Store :=
  { rooms := [("R1", sampleState)], logEntries := [], snapshots := [],
    presence := [] }

/-- The spec scenario's first client operation. -/
def sampleMove : ClientOp :=
  { type := "move", cardId := "c1", toZone := "field", clientV := some 0 }

/-- A store with no rooms, rows or presence. -/
def emptyStore : Store :=
  { rooms := [], logEntries := [], snapshots := [], presence := [] }

/-- An empty heap-model store. -/
def emptyStoreH : StoreH :=
  { heap := [], rooms := [], logEntries := [], snapshots := [] }

/-- Room `R1` after the spec scenario's accepted move. -/
def fieldState : RoomState :=
  { id := "R1", version := 1, cards := [{ id := "c1", zone := "field" }] }

/-- The store after the spec scenario's accepted move on `sampleStore`. -/
def storeV1 : Store :=
  { rooms := [("R1", fieldState)],
    logEntries := [{ roomId := "R1", version := 1,
                     op := { type := "move", cardId := "c1", toZone := "field",
                             version := 1 } }],
    snapshots := [], presence := [] }

/-- The result of the spec scenario's accepted move. -/
def sampleResult : ApplyResult :=
  { delta := { type := "move", cardId := "c1", toZone := "field", version := 1 },
    version := 1, state := fieldState }

/-- A stale presence entry (last update at time 0). -/
def entryA : PresenceEntry :=
  { clientId := "a", holding := none, ts := "t0", updatedAt := 0 }

/-- A fresh presence entry (last update at time 90000). -/
def entryB : PresenceEntry :=
  { clientId := "b", holding := some "c1", ts := "t9", updatedAt := 90000 }

/-- A store whose room `R1` has one stale and one fresh presence entry. -/
def presenceStore : Store :=
  { rooms := [], logEntries := [], snapshots := [],
    presence := [("R1", [("a", entryA), ("b", entryB)])] }

/-! ## Support lemmas -/

lemma mapLookup_mapSet_self {α : Type} (m : List (String × α)) (k : String) (v : α) :
    mapLookup (mapSet m k v) k = some v := by
  induction m with
  | nil => simp [mapLookup, mapSet]
  | cons p rest ih =>
    by_cases hp : p.1 = k
    · simp [mapLookup, mapSet, hp]
    · simp [mapLookup, mapSet, hp, ih]

lemma mapLookup_mapSet_ne {α : Type} (m : List (String × α)) (k k' : String) (v : α)
    (h : k' ≠ k) : mapLookup (mapSet m k v) k' = mapLookup m k' := by
  have hk : ¬ k = k' := fun hh => h hh.symm
  induction m with
  | nil => simp [mapLookup, mapSet, hk]
  | cons p rest ih =>
    by_cases hp : p.1 = k
    · have hp' : ¬ p.1 = k' := by rw [hp]; exact hk
      simp [mapLookup, mapSet, hp, hk, hp']
    · simp [mapLookup, mapSet, hp, ih]

lemma insertByVersion_append_max (a e : LogEntry) (s : List LogEntry)
    (h : a.version < e.version) :
    insertByVersion a (s ++ [e]) = insertByVersion a s ++ [e] := by
  induction s with
  | nil => simp [insertByVersion, Nat.le_of_lt h]
  | cons x xs ih =>
    by_cases hx : a.version ≤ x.version
    · simp [insertByVersion, hx]
    · simp [insertByVersion, hx, ih]

lemma foldr_insertByVersion_max (l : List LogEntry) (e : LogEntry)
    (h : ∀ x ∈ l, x.version < e.version) :
    List.foldr insertByVersion [e] l = List.foldr insertByVersion [] l ++ [e] := by
  induction l with
  | nil => simp
  | cons a l ih =>
    simp only [List.foldr_cons]
    rw [ih (fun x hx => h x (List.mem_cons_of_mem a hx))]
    exact insertByVersion_append_max a e _ (h a (List.mem_cons_self a l))

lemma sortByVersion_append_max (l : List LogEntry) (e : LogEntry)
    (h : ∀ x ∈ l, x.version < e.version) :
    sortByVersion (l ++ [e]) = sortByVersion l ++ [e] := by
  unfold sortByVersion
  rw [List.foldr_append]
  exact foldr_insertByVersion_max l e h

lemma replay_append (base : RoomState) (ops : List LogEntry) (e : LogEntry) :
    replay base (ops ++ [e])
      = (replay base ops).bind (fun st => applyMoveOperation st e.op) := by
  induction ops generalizing base with
  | nil =>
    simp only [List.nil_append, replay, Option.bind]
    cases applyMoveOperation base e.op with
    | none => rfl
    | some st => rfl
  | cons x xs ih =>
    simp only [List.cons_append, replay]
    cases applyMoveOperation base x.op with
    | none => rfl
    | some st => exact ih st

lemma applyMoveOperation_of_find (st : RoomState) (mop : MoveOp) (c : Card)
    (h : st.cards.find? (fun x => x.id = mop.cardId) = some c) :
    applyMoveOperation st mop
      = some { st with cards := setCardZone st.cards mop.cardId mop.toZone,
                       version := mop.version } := by
  simp [applyMoveOperation, h]

lemma find_setCardZone (cards : List Card) (cid tz : String) (c : Card)
    (h : cards.find? (fun x => x.id = cid) = some c) :
    (setCardZone cards cid tz).find? (fun x => x.id = cid)
      = some { c with zone := tz } := by
  induction cards with
  | nil => simp [List.find?] at h
  | cons x rest ih =>
    by_cases hx : x.id = cid
    · rw [List.find?_cons_of_pos _ (by simp [hx])] at h
      cases h
      simp [setCardZone, hx, List.find?_cons_of_pos]
    · rw [List.find?_cons_of_neg _ (by simp [hx])] at h
      simp only [setCardZone, if_neg hx]
      rw [List.find?_cons_of_neg _ (by simp [hx])]
      exact ih h

lemma entriesFor_opInsert (log : List LogEntry) (r : String) (v : Nat) (mop : MoveOp)
    (h : ∀ e ∈ entriesFor log r, e.version ≠ v) :
    entriesFor (opInsert log r v mop) r
      = entriesFor log r ++ [{ roomId := r, version := v, op := mop }] := by
  unfold entriesFor opInsert
  rw [List.filter_append]
  congr 1
  · rw [List.filter_filter]
    apply List.filter_congr
    intro e he
    by_cases er : e.roomId = r
    · have hv : e.version ≠ v :=
        h e (by simp [entriesFor, List.mem_filter, he, er])
      simp [er, hv]
    · simp [er]
  · simp

lemma opsAfter_opInsert (log : List LogEntry) (r : String) (v : Nat) (mop : MoveOp)
    (b : Nat) (hlt : ∀ e ∈ entriesFor log r, e.version < v) (hb : b < v) :
    opsAfter (opInsert log r v mop) r b
      = opsAfter log r b ++ [{ roomId := r, version := v, op := mop }] := by
  unfold opsAfter
  rw [entriesFor_opInsert log r v mop (fun e he => Nat.ne_of_lt (hlt e he))]
  rw [List.filter_append]
  have hsing : [(⟨r, v, mop⟩ : LogEntry)].filter (fun e => b < e.version)
      = [⟨r, v, mop⟩] := by simp [hb]
  rw [hsing]
  exact sortByVersion_append_max _ _
    (fun x hx => hlt x (List.mem_of_mem_filter hx))

lemma initRoom_cached (dir : TemplateDir) {s : Store} {roomId : String}
    {st : RoomState} (h : mapLookup s.rooms roomId = some st) :
    initRoom dir s roomId = (s, some st) := by
  unfold initRoom
  rw [h]

lemma applyOperationBody_cached (dir : TemplateDir) {s : Store} {roomId : String}
    {st : RoomState} (op : ClientOp) (h : mapLookup s.rooms roomId = some st) :
    applyOperationBody dir s roomId op = applyOperationAt s roomId op st := by
  unfold applyOperationBody
  rw [initRoom_cached dir h]

lemma applyOperationAt_not_move (s : Store) (roomId : String) (op : ClientOp)
    (st : RoomState) (ht : op.type ≠ "move") :
    applyOperationAt s roomId op st
      = (s, Except.error (OpError.unsupportedType op.type)) := by
  unfold applyOperationAt
  rw [if_pos ht]

lemma applyOperationAt_noClientV (s : Store) (roomId : String) (op : ClientOp)
    (st : RoomState) (ht : op.type = "move") (hcv : op.clientV = none) :
    applyOperationAt s roomId op st = (s, Except.error OpError.clientVRequired) := by
  unfold applyOperationAt
  rw [if_neg (by simp [ht]), hcv]

lemma applyOperationAt_conflict (s : Store) (roomId : String) (op : ClientOp)
    (st : RoomState) (cv : Int) (ht : op.type = "move")
    (hcv : op.clientV = some cv) (hne : cv ≠ (st.version : Int)) :
    applyOperationAt s roomId op st
      = (s, Except.error (OpError.versionConflict st.version st)) := by
  unfold applyOperationAt
  rw [if_neg (by simp [ht]), hcv]
  dsimp only
  rw [if_pos hne]
  rfl

lemma applyOperationAt_cardMissing (s : Store) (roomId : String) (op : ClientOp)
    (st : RoomState) (cv : Int) (ht : op.type = "move")
    (hcv : op.clientV = some cv) (hv : cv = (st.version : Int))
    (hmiss : st.cards.find? (fun c => c.id = op.cardId) = none) :
    applyOperationAt s roomId op st
      = (s, Except.error (OpError.cardNotFound op.cardId)) := by
  unfold applyOperationAt
  rw [if_neg (by simp [ht]), hcv]
  dsimp only
  rw [if_neg (by simp [hv])]
  simp [applyMoveOperation, hmiss]

lemma applyOperationAt_success (s : Store) (roomId : String) (op : ClientOp)
    (st : RoomState) (cv : Int) (c : Card) (ht : op.type = "move")
    (hcv : op.clientV = some cv) (hv : cv = (st.version : Int))
    (hfind : st.cards.find? (fun x => x.id = op.cardId) = some c) :
    applyOperationAt s roomId op st
      = ({ s with
            rooms := mapSet s.rooms roomId
              { st with cards := setCardZone st.cards op.cardId op.toZone,
                        version := st.version + 1 },
            logEntries := opInsert s.logEntries roomId (st.version + 1)
              { type := "move", cardId := op.cardId, toZone := op.toZone,
                version := st.version + 1 } },
         Except.ok
           { delta := { type := "move", cardId := op.cardId, toZone := op.toZone,
                        version := st.version + 1 },
             version := st.version + 1,
             state := { st with cards := setCardZone st.cards op.cardId op.toZone,
                                version := st.version + 1 } }) := by
  unfold applyOperationAt
  rw [if_neg (by simp [ht]), hcv]
  dsimp only
  rw [if_neg (by simp [hv])]
  rw [applyMoveOperation_of_find st _ c hfind]
  rfl

lemma applyOperationBody_preserves_roomInv (dir : TemplateDir) (s : Store)
    (roomId : String) (op : ClientOp) (h : roomInv dir s roomId) :
    roomInv dir (applyOperationBody dir s roomId op).1 roomId := by
  obtain ⟨st, hlook, h1, h2, h3, h4⟩ := h
  rw [applyOperationBody_cached dir op hlook]
  by_cases ht : op.type = "move"
  · cases hcv : op.clientV with
    | none =>
      rw [applyOperationAt_noClientV s roomId op st ht hcv]
      exact ⟨st, hlook, h1, h2, h3, h4⟩
    | some cv =>
      by_cases hv : cv = (st.version : Int)
      · cases hfind : st.cards.find? (fun x => x.id = op.cardId) with
        | none =>
          rw [applyOperationAt_cardMissing s roomId op st cv ht hcv hv hfind]
          exact ⟨st, hlook, h1, h2, h3, h4⟩
        | some c =>
          rw [applyOperationAt_success s roomId op st cv c ht hcv hv hfind]
          dsimp only
          refine ⟨{ st with cards := setCardZone st.cards op.cardId op.toZone,
                            version := st.version + 1 },
                  mapLookup_mapSet_self .., ?_, ?_, ?_, ?_⟩
          · rw [entriesFor_opInsert s.logEntries roomId (st.version + 1) _
              (fun e he => Nat.ne_of_lt (Nat.lt_succ_of_le (h1 e he)))]
            intro e he
            rcases List.mem_append.mp he with hmem | hmem
            · exact Nat.le_succ_of_le (h1 e hmem)
            · rw [List.mem_singleton.mp hmem]
          · intro _
            refine ⟨{ roomId := roomId, version := st.version + 1,
                      op := { type := "move", cardId := op.cardId,
                              toZone := op.toZone, version := st.version + 1 } },
                    ?_, rfl⟩
            rw [entriesFor_opInsert s.logEntries roomId (st.version + 1) _
              (fun e he => Nat.ne_of_lt (Nat.lt_succ_of_le (h1 e he)))]
            exact List.mem_append_right _ (List.mem_singleton_self _)
          · exact Nat.le_succ_of_le h3
          · rw [opsAfter_opInsert s.logEntries roomId (st.version + 1) _ _
              (fun e he => Nat.lt_succ_of_le (h1 e he)) (Nat.lt_succ_of_le h3)]
            rw [replay_append, h4, Option.some_bind]
            exact applyMoveOperation_of_find st _ c hfind
      · rw [applyOperationAt_conflict s roomId op st cv ht hcv hv]
        exact ⟨st, hlook, h1, h2, h3, h4⟩
  · rw [applyOperationAt_not_move s roomId op st ht]
    exact ⟨st, hlook, h1, h2, h3, h4⟩

lemma initRoom_fresh_inv (dir : TemplateDir) (s : Store) (roomId : String)
    (hnc : mapLookup s.rooms roomId = none)
    (hne : entriesFor s.logEntries roomId = [])
    (_hns : s.snapshots.filter (fun sn => sn.roomId = roomId) = []) :
    roomInv dir (initRoom dir s roomId).1 roomId := by
  have hops : opsAfter s.logEntries roomId
      (baseState dir s.snapshots roomId).version = [] := by
    unfold opsAfter
    rw [hne]
    rfl
  have hinit : initRoom dir s roomId
      = ({ s with rooms := mapSet s.rooms roomId (baseState dir s.snapshots roomId) },
         some (baseState dir s.snapshots roomId)) := by
    unfold initRoom
    rw [hnc, hops]
    rfl
  rw [hinit]
  refine ⟨baseState dir s.snapshots roomId, mapLookup_mapSet_self .., ?_, ?_, ?_, ?_⟩
  · show ∀ e ∈ entriesFor s.logEntries roomId,
      e.version ≤ (baseState dir s.snapshots roomId).version
    rw [hne]
    simp
  · show entriesFor s.logEntries roomId ≠ [] →
      ∃ e ∈ entriesFor s.logEntries roomId,
        e.version = (baseState dir s.snapshots roomId).version
    intro hcon
    exact absurd hne hcon
  · exact Nat.le_refl _
  · show replay (baseState dir s.snapshots roomId)
        (opsAfter s.logEntries roomId (baseState dir s.snapshots roomId).version)
      = some (baseState dir s.snapshots roomId)
    rw [hops]
    rfl

lemma submitAll_execOrder (subs : List (String × Nat))
    (locks : List (String × Chain)) (key : String) :
    ((mapLookup (submitAll locks subs) key).map execOrder).getD []
      = ((mapLookup locks key).map execOrder).getD []
          ++ (subs.filter (fun p => p.1 = key)).map Prod.snd := by
  induction subs generalizing locks with
  | nil => simp [submitAll]
  | cons p rest ih =>
    obtain ⟨k, t⟩ := p
    show ((mapLookup (submitAll (withKey locks k t).1 rest) key).map execOrder).getD []
      = _
    rw [ih]
    by_cases hk : k = key
    · subst hk
      show ((mapLookup (mapSet locks k (Chain.seq _ t)) k).map execOrder).getD []
          ++ _ = _
      rw [mapLookup_mapSet_self]
      cases hl : mapLookup locks k with
      | none => simp [hl, execOrder]
      | some ch => simp [hl, execOrder]
    · have hk' : key ≠ k := fun hh => hk hh.symm
      show ((mapLookup (mapSet locks k (Chain.seq _ t)) key).map execOrder).getD []
          ++ _ = _
      rw [mapLookup_mapSet_ne locks k key _ hk']
      simp [hk]

lemma entriesFor_erase (log : List LogEntry) (r : String) :
    entriesFor (log.filter (fun e => ¬ e.roomId = r)) r = [] := by
  unfold entriesFor
  rw [List.filter_filter]
  apply List.filter_eq_nil_iff.mpr
  intro e _
  simp

lemma snapshots_erase_filter (snaps : List Snapshot) (r : String) :
    (snaps.filter (fun sn => ¬ sn.roomId = r)).filter (fun sn => sn.roomId = r)
      = [] := by
  rw [List.filter_filter]
  apply List.filter_eq_nil_iff.mpr
  intro sn _
  simp

lemma initRoomH_lookup (dir : TemplateDir) (s : StoreH) (roomId : String)
    (s1 : StoreH) (addr : Nat) (h : initRoomH dir s roomId = (s1, some addr)) :
    mapLookup s1.rooms roomId = some addr := by
  unfold initRoomH at h
  cases hl : mapLookup s.rooms roomId with
  | some a =>
    rw [hl] at h
    injection h with h1 h2
    injection h2 with h2
    subst h1
    subst h2
    exact hl
  | none =>
    rw [hl] at h
    cases hr : replay (baseState dir s.snapshots roomId)
        (opsAfter s.logEntries roomId (baseState dir s.snapshots roomId).version) with
    | none =>
      rw [hr] at h
      exact absurd h (by simp)
    | some st =>
      rw [hr] at h
      injection h with h1 h2
      injection h2 with h2
      subst h1
      subst h2
      exact mapLookup_mapSet_self ..

/-- The chain mechanics behind node 3 of `nestedAcquisitionDeps`: when a
second `withKey` submission for the same key arrives while the first
run is the recorded tail, the inner run is chained strictly after the
outer run. -/
lemma nested_withKey_tail :
    (withKey ((withKey [] "R1" 0).1) "R1" 1).2
      = Chain.seq ((withKey [] "R1" 0).2) 1 := by
  decide

lemma settles_not_in_cycle (p : Nat) (h : Settles nestedAcquisitionDeps p) :
    p ≠ 1 ∧ p ≠ 2 ∧ p ≠ 3 := by
  induction h with
  | mk p hdeps ih =>
    refine ⟨?_, ?_, ?_⟩
    · intro hp
      subst hp
      exact (ih 2 (by decide)).2.1 rfl
    · intro hp
      subst hp
      exact (ih 3 (by decide)).2.2 rfl
    · intro hp
      subst hp
      exact (ih 1 (by decide)).1 rfl

/-- The deadlock of part_002's nested lock acquisition: the recorded
outer run of `applyOperation` (node 1) can never settle, because its
settlement requires its body's settlement, which awaits the inner
`initRoom` run, which is chained after the outer run itself. -/
lemma nestedAcquisition_deadlocks : ¬ Settles nestedAcquisitionDeps 1 :=
  fun h => (settles_not_in_cycle 1 h).1 rfl

/-- Sanity: the settlement predicate is not vacuously empty — the idle
tail and the inner body, which wait for nothing, do settle. -/
lemma settles_off_cycle :
    Settles nestedAcquisitionDeps 0 ∧ Settles nestedAcquisitionDeps 4 :=
  ⟨Settles.mk 0 (by simp [nestedAcquisitionDeps]),
   Settles.mk 4 (by simp [nestedAcquisitionDeps])⟩

lemma runOps_preserves_roomInv (dir : TemplateDir) (s : Store) (roomId : String)
    (ops : List ClientOp) (h : roomInv dir s roomId) :
    roomInv dir (runOps dir roomId s ops) roomId := by
  induction ops generalizing s with
  | nil => exact h
  | cons op rest ih =>
    exact ih _ (applyOperationBody_preserves_roomInv dir s roomId op h)

lemma applyOperationBody_success_effects (dir : TemplateDir) (s : Store)
    (roomId : String) (op : ClientOp) (st : RoomState) (s' : Store)
    (r : ApplyResult) (hlook : mapLookup s.rooms roomId = some st)
    (hmax : ∀ e ∈ entriesFor s.logEntries roomId, e.version ≤ st.version)
    (hsucc : applyOperationBody dir s roomId op = (s', Except.ok r)) :
    r.version = st.version + 1 ∧
    r.state.version = st.version + 1 ∧
    mapLookup s'.rooms roomId = some r.state ∧
    r.delta = { type := "move", cardId := op.cardId, toZone := op.toZone,
                version := st.version + 1 } ∧
    entriesFor s'.logEntries roomId
      = entriesFor s.logEntries roomId
          ++ [{ roomId := roomId, version := st.version + 1, op := r.delta }] ∧
    (r.state.cards.find? (fun c => c.id = op.cardId)).map Card.zone
      = some op.toZone := by
  rw [applyOperationBody_cached dir op hlook] at hsucc
  by_cases ht : op.type = "move"
  · cases hcv : op.clientV with
    | none =>
      rw [applyOperationAt_noClientV s roomId op st ht hcv] at hsucc
      simp at hsucc
    | some cv =>
      by_cases hv : cv = (st.version : Int)
      · cases hfind : st.cards.find? (fun x => x.id = op.cardId) with
        | none =>
          rw [applyOperationAt_cardMissing s roomId op st cv ht hcv hv hfind] at hsucc
          simp at hsucc
        | some c =>
          rw [applyOperationAt_success s roomId op st cv c ht hcv hv hfind] at hsucc
          injection hsucc with h1 h2
          injection h2 with h2
          subst h1
          subst h2
          refine ⟨rfl, rfl, mapLookup_mapSet_self .., rfl, ?_, ?_⟩
          · exact entriesFor_opInsert s.logEntries roomId (st.version + 1) _
              (fun e he => Nat.ne_of_lt (Nat.lt_succ_of_le (hmax e he)))
          · dsimp only
            rw [find_setCardZone st.cards op.cardId op.toZone c hfind]
            rfl
      · rw [applyOperationAt_conflict s roomId op st cv ht hcv hv] at hsucc
        simp at hsucc
  · rw [applyOperationAt_not_move s roomId op st ht] at hsucc
    simp at hsucc

lemma applyOperationBody_invalid_rejected (dir : TemplateDir) (s : Store)
    (roomId : String) (op : ClientOp) (st : RoomState)
    (hlook : mapLookup s.rooms roomId = some st)
    (hbad : op.type ≠ "move" ∨ op.clientV = none ∨
      (op.type = "move" ∧ op.clientV = some (st.version : Int) ∧
        st.cards.find? (fun c => c.id = op.cardId) = none)) :
    ∃ e : OpError, applyOperationBody dir s roomId op = (s, Except.error e) := by
  rw [applyOperationBody_cached dir op hlook]
  rcases hbad with ht | hcv | ⟨ht, hcv, hmiss⟩
  · exact ⟨_, applyOperationAt_not_move s roomId op st ht⟩
  · by_cases ht : op.type = "move"
    · exact ⟨_, applyOperationAt_noClientV s roomId op st ht hcv⟩
    · exact ⟨_, applyOperationAt_not_move s roomId op st ht⟩
  · exact ⟨_, applyOperationAt_cardMissing s roomId op st (st.version : Int)
      ht hcv rfl hmiss⟩

/-! ## Claim theorems -/

/-- C1 (code bug): the source never accepts any operation — the
`applyOperation` promise (node 1) never settles, because its body
re-acquires the room's non-reentrant lock for `initRoom` and the runs
form a dependency cycle.  The invariant the claim states is the code's
evident intent and holds of the intended body semantics: it is
established at first access of a history-less room and preserved across
the spec scenario's accepted move (`initRoom_fresh_inv`,
`runOps_preserves_roomInv` prove the general statements). -/
theorem claim1_code_bug :
    ¬ Settles nestedAcquisitionDeps 1 ∧
    roomInv sampleDir (initRoom sampleDir emptyStore "R1").1 "R1" ∧
    roomInv sampleDir (runOps sampleDir "R1" sampleStore [sampleMove]) "R1" :=
  ⟨nestedAcquisition_deadlocks,
   initRoom_fresh_inv sampleDir emptyStore "R1" rfl rfl rfl,
   runOps_preserves_roomInv sampleDir sampleStore "R1" [sampleMove]
     ⟨sampleState, by decide, by unfold roomInvAt; decide⟩⟩

/-- C2 (code bug): the conflict error is never delivered — the call
deadlocks at the nested `initRoom` acquisition before the `clientV`
check runs.  The behaviour the claim describes is the body's intent: on
the spec scenario's stale second submission (clientV 0 against version
1) the critical-section body past the nested await produces exactly the
version-conflict error with the current version and a full state copy,
and hands back the store unchanged. -/
theorem claim2_code_bug :
    ¬ Settles nestedAcquisitionDeps 1 ∧
    applyOperationBody sampleDir storeV1 "R1" sampleMove
      = (storeV1, Except.error (OpError.versionConflict 1 fieldState)) :=
  ⟨nestedAcquisition_deadlocks, rfl⟩

/-- C3 (code bug): no `applyOperation` call ever succeeds, appends a
LogEntry or returns a delta — the call never settles.  The claim
matches the body's intent: on the spec scenario's move against the
fresh room the body yields version old+1, appends exactly one LogEntry
at that version, and returns the tagged delta and a state whose card
`c1` sits in zone `field` (`applyOperationBody_success_effects` proves
the general statement). -/
theorem claim3_code_bug :
    ¬ Settles nestedAcquisitionDeps 1 ∧
    applyOperationBody sampleDir sampleStore "R1" sampleMove
      = (storeV1, Except.ok sampleResult) ∧
    sampleResult.version = sampleState.version + 1 ∧
    mapLookup storeV1.rooms "R1" = some sampleResult.state ∧
    entriesFor storeV1.logEntries "R1"
      = entriesFor sampleStore.logEntries "R1"
          ++ [{ roomId := "R1", version := 1, op := sampleResult.delta }] ∧
    (sampleResult.state.cards.find? (fun c => c.id = "c1")).map Card.zone
      = some "field" :=
  ⟨nestedAcquisition_deadlocks, rfl, rfl, by decide, by decide, rfl⟩

/-- C4 counterexample: `resetRoom` does not leave zero Snapshots for the
room — it writes one fresh baseline snapshot after deleting the history,
so the room's snapshot table is non-empty afterwards. -/
theorem claim4_counterexample :
    (resetRoom sampleDir emptyStore "R1").1.snapshots.filter
        (fun sn => sn.roomId = "R1") ≠ [] := by
  decide

/-- C4 (amended): `resetRoom` yields a state whose version equals the
template's baseline version, leaves zero LogEntries and exactly one
Snapshot (the fresh baseline snapshot at the template's version) for the
room, and clears the room's presence so a subsequent `getPresence`
returns the empty list. -/
theorem claim4_reset_room (dir : TemplateDir) (s : Store) (roomId : String) :
    (resetRoom dir s roomId).2.version = (loadTemplate dir roomId).version ∧
    mapLookup (resetRoom dir s roomId).1.rooms roomId
      = some (loadTemplate dir roomId) ∧
    entriesFor (resetRoom dir s roomId).1.logEntries roomId = [] ∧
    (resetRoom dir s roomId).1.snapshots.filter (fun sn => sn.roomId = roomId)
      = [{ roomId := roomId, version := (loadTemplate dir roomId).version,
           state := loadTemplate dir roomId }] ∧
    getPresence (resetRoom dir s roomId).1 roomId = [] := by
  refine ⟨rfl, mapLookup_mapSet_self .., entriesFor_erase .., ?_, ?_⟩
  · show ((s.snapshots.filter _) ++ [_]).filter _ = _
    rw [List.filter_append, snapshots_erase_filter]
    simp
  · unfold getPresence
    rw [show mapLookup (resetRoom dir s roomId).1.presence roomId = some []
        from mapLookup_mapSet_self ..]
    rfl

/-- C5: for a fixed key, the tasks of the key's promise chain execute
strictly one after another in FIFO submission order and contain exactly
that key's submissions (other keys' tasks never enter the chain, so keys
are independent); every task submitted for the key is admitted to the
chain no matter what any task's outcome is; and the chain a caller
awaits settles with its own task's outcome, unaffected by earlier
failures. -/
theorem claim5_keyed_lock (subs : List (String × Nat)) (key : String) :
    (((mapLookup (submitAll [] subs) key).map execOrder).getD []
      = (subs.filter (fun p => p.1 = key)).map Prod.snd)
    ∧ (∀ t : Nat, (key, t) ∈ subs →
        t ∈ ((mapLookup (submitAll [] subs) key).map execOrder).getD [])
    ∧ ∀ (locks : List (String × Chain)) (task : Nat)
        (outcomes : Nat → Except String Nat),
        chainResult outcomes (withKey locks key task).2 = outcomes task := by
  have hmain := submitAll_execOrder subs [] key
  rw [show ((mapLookup ([] : List (String × Chain)) key).map execOrder).getD []
      = [] from rfl, List.nil_append] at hmain
  refine ⟨hmain, ?_, ?_⟩
  · intro t hmem
    rw [hmain]
    exact List.mem_map.mpr ⟨(key, t), List.mem_filter.mpr ⟨hmem, by simp⟩, rfl⟩
  · intro locks task outcomes
    rfl

/-- Witness for C5: a concrete interleaved submission burst; the task
submitted for key "k" is admitted to "k"'s chain. -/
theorem claim5_witness :
    (("k", 1) ∈ [("k", (1 : Nat)), ("j", 2), ("k", 3)]) ∧
    1 ∈ ((mapLookup (submitAll [] [("k", 1), ("j", 2), ("k", 3)]) "k").map
          execOrder).getD [] :=
  ⟨by decide,
   (claim5_keyed_lock [("k", 1), ("j", 2), ("k", 3)] "k").2.1 1 (by decide)⟩

/-- C6 counterexample: `initRoom` does NOT return a deep copy — it hands
back the cached object itself.  On a concrete fresh store, the reference
`initRoom` returns is exactly the cached reference, and mutating through
it makes the cached cell read back the mutated value instead of the
original state. -/
theorem claim6_counterexample :
    ((initRoomH sampleDir emptyStoreH "R1").2
        = mapLookup (initRoomH sampleDir emptyStoreH "R1").1.rooms "R1")
    ∧ readAddr
        (writeAddr (initRoomH sampleDir emptyStoreH "R1").1.heap
          ((initRoomH sampleDir emptyStoreH "R1").2.getD 0)
          { id := "R1", version := 1, cards := [{ id := "c1", zone := "field" }] })
        ((mapLookup (initRoomH sampleDir emptyStoreH "R1").1.rooms "R1").getD 0)
      = some { id := "R1", version := 1, cards := [{ id := "c1", zone := "field" }] }
    ∧ ({ id := "R1", version := 1, cards := [{ id := "c1", zone := "field" }] }
        : RoomState) ≠ sampleState := by
  decide

/-- C6 (amended): `getRoomState` returns a deep copy — a fresh object
distinct from the cached one — so mutating the returned structure never
changes the engine's cached state; `initRoom`, by contrast, returns the
cached object itself (see the counterexample). -/
theorem claim6_getstate_copy (dir : TemplateDir) (s : StoreH) (roomId : String)
    (s' : StoreH) (a ca : Nat)
    (hget : getRoomStateH dir s roomId = (s', some a))
    (hca : mapLookup s'.rooms roomId = some ca) :
    a ≠ ca ∧
    ∀ w : RoomState, readAddr (writeAddr s'.heap a w) ca = readAddr s'.heap ca := by
  rcases hinit : initRoomH dir s roomId with ⟨s1, r⟩
  cases r with
  | none =>
    have hget2 : (s1, (none : Option Nat)) = (s', some a) := by
      rw [← hget]
      unfold getRoomStateH
      rw [hinit]
    exact absurd hget2 (by simp)
  | some addr =>
    have hget2 : (match readAddr s1.heap addr with
        | none => (s1, (none : Option Nat))
        | some v =>
          ({ s1 with heap := s1.heap ++ [v] }, some s1.heap.length))
        = (s', some a) := by
      rw [← hget]
      unfold getRoomStateH
      rw [hinit]
    cases hread : readAddr s1.heap addr with
    | none =>
      rw [hread] at hget2
      exact absurd hget2 (by simp)
    | some v =>
      rw [hread] at hget2
      injection hget2 with h1 h2
      injection h2 with h2
      subst h1
      subst h2
      have hlk := initRoomH_lookup dir s roomId s1 addr hinit
      have hcaddr : ca = addr := by
        rw [show ({ s1 with heap := s1.heap ++ [v] } : StoreH).rooms = s1.rooms
            from rfl, hlk] at hca
        injection hca with hca
        exact hca.symm
      subst hcaddr
      unfold readAddr at hread
      have hlt : ca < s1.heap.length := (List.getElem?_eq_some_iff.mp hread).1
      refine ⟨(Nat.ne_of_lt hlt).symm, ?_⟩
      intro w
      unfold readAddr writeAddr
      exact List.getElem?_set_ne (Nat.ne_of_lt hlt).symm

/-- Witness for C6 (amended): on the concrete fresh store, the cell
`getRoomState` returns is distinct from the cached cell, and writing
through it leaves the cached cell's content unchanged. -/
theorem claim6_witness :
    (1 : Nat) ≠ 0 ∧
    ∀ w : RoomState,
      readAddr (writeAddr (getRoomStateH sampleDir emptyStoreH "R1").1.heap 1 w) 0
        = readAddr (getRoomStateH sampleDir emptyStoreH "R1").1.heap 0 :=
  claim6_getstate_copy sampleDir emptyStoreH "R1"
    (getRoomStateH sampleDir emptyStoreH "R1").1 1 0 (by decide) (by decide)

/-- C7 (code bug): an invalid operation is never rejected — the
type/clientV/card checks sit after the nested `await this.initRoom`,
so the call hangs instead of throwing.  The rejections the claim
describes are the body's intent: past the nested await, an unsupported
type, a missing `clientV`, and (at the current version) an unknown
card each produce their error and hand back the store unchanged
(`applyOperationBody_invalid_rejected` proves the general statement). -/
theorem claim7_code_bug :
    ¬ Settles nestedAcquisitionDeps 1 ∧
    applyOperationBody sampleDir sampleStore "R1"
        { type := "drop", cardId := "c1", toZone := "field", clientV := some 0 }
      = (sampleStore, Except.error (OpError.unsupportedType "drop")) ∧
    applyOperationBody sampleDir sampleStore "R1"
        { type := "move", cardId := "c1", toZone := "field", clientV := none }
      = (sampleStore, Except.error OpError.clientVRequired) ∧
    applyOperationBody sampleDir sampleStore "R1"
        { type := "move", cardId := "zz", toZone := "field", clientV := some 0 }
      = (sampleStore, Except.error (OpError.cardNotFound "zz")) :=
  ⟨nestedAcquisition_deadlocks, rfl, rfl, rfl⟩

/-- C8: `prunePresence` removes exactly the entries whose elapsed time
since their last update strictly exceeds the 30-second threshold: the
stored map keeps precisely the within-threshold entries, the returned
list serializes those, and an over-threshold entry is gone while every
within-threshold entry is retained. -/
theorem claim8_prune_exact (s : Store) (roomId : String) (now : Nat)
    (m : List (String × PresenceEntry))
    (hm : mapLookup s.presence roomId = some m) :
    mapLookup (prunePresence s roomId now).1.presence roomId
      = some (m.filter (fun p => ¬ (now - p.2.updatedAt > PRESENCE_STALE_MS))) ∧
    (prunePresence s roomId now).2
      = serializePresence
          ((m.filter (fun p => ¬ (now - p.2.updatedAt > PRESENCE_STALE_MS))).map
            Prod.snd) ∧
    ∀ p ∈ m,
      (now - p.2.updatedAt > PRESENCE_STALE_MS →
        p ∉ m.filter (fun q => ¬ (now - q.2.updatedAt > PRESENCE_STALE_MS))) ∧
      (now - p.2.updatedAt ≤ PRESENCE_STALE_MS →
        p ∈ m.filter (fun q => ¬ (now - q.2.updatedAt > PRESENCE_STALE_MS))) := by
  unfold prunePresence
  rw [hm]
  refine ⟨mapLookup_mapSet_self .., rfl, ?_⟩
  intro p hp
  constructor
  · intro hstale hmem
    have hk := (List.mem_filter.mp hmem).2
    simp only [decide_eq_true_eq] at hk
    exact hk hstale
  · intro hfresh
    refine List.mem_filter.mpr ⟨hp, ?_⟩
    simp only [decide_eq_true_eq]
    omega

/-- Witness for C8: on a room with one stale and one fresh entry at time
100000, prune keeps exactly the fresh one. -/
theorem claim8_witness :
    mapLookup (prunePresence presenceStore "R1" 100000).1.presence "R1"
      = some ([("a", entryA), ("b", entryB)].filter
          (fun p => ¬ (100000 - p.2.updatedAt > PRESENCE_STALE_MS))) ∧
    (prunePresence presenceStore "R1" 100000).2
      = serializePresence
          (([("a", entryA), ("b", entryB)].filter
              (fun p => ¬ (100000 - p.2.updatedAt > PRESENCE_STALE_MS))).map
            Prod.snd) ∧
    ∀ p ∈ [("a", entryA), ("b", entryB)],
      (100000 - p.2.updatedAt > PRESENCE_STALE_MS →
        p ∉ [("a", entryA), ("b", entryB)].filter
              (fun q => ¬ (100000 - q.2.updatedAt > PRESENCE_STALE_MS))) ∧
      (100000 - p.2.updatedAt ≤ PRESENCE_STALE_MS →
        p ∈ [("a", entryA), ("b", entryB)].filter
              (fun q => ¬ (100000 - q.2.updatedAt > PRESENCE_STALE_MS))) :=
  claim8_prune_exact presenceStore "R1" 100000 [("a", entryA), ("b", entryB)] rfl

/-- C9 (code bug): `updatePresence` never returns a presence list — its
critical section awaits `initRoom`'s nested acquisition of the same key
and never settles, so the claim's "update" case describes behaviour the
source lacks.  The shape the claim states is real for the three
operations that do complete (`get`, `clear`, `prune`) and for
`updatePresence`'s intended body: every list is `serializePresence`
output, whose entries carry exactly `clientId`, `holding` and the
declared `ts` (the `PresencePublic` shape) and which is oblivious to
the internal receipt timestamp `updatedAt`. -/
theorem claim9_code_bug :
    (¬ Settles nestedAcquisitionDeps 1)
    ∧ (∀ (e : PresenceEntry) (t : Nat),
        serializeEntry { e with updatedAt := t } = serializeEntry e)
    ∧ (∀ (s : Store) (roomId : String),
        ∃ es, getPresence s roomId = serializePresence es)
    ∧ (∀ (s : Store) (roomId clientId : String),
        ∃ es, (clearPresence s roomId clientId).2 = serializePresence es)
    ∧ (∀ (s : Store) (roomId : String) (now : Nat),
        ∃ es, (prunePresence s roomId now).2 = serializePresence es)
    ∧ ∀ (dir : TemplateDir) (s : Store) (roomId clientId : String)
        (payload : PresencePayload) (now : Nat) (nowIso : String),
        ∃ es, ((updatePresenceBody dir s roomId clientId payload now nowIso).2.getD [])
          = serializePresence es := by
  refine ⟨nestedAcquisition_deadlocks, fun e t => rfl,
    fun s roomId => ⟨_, rfl⟩, ?_, ?_, ?_⟩
  · intro s roomId clientId
    unfold clearPresence
    cases mapLookup s.presence roomId with
    | none => exact ⟨[], rfl⟩
    | some m => exact ⟨_, rfl⟩
  · intro s roomId now
    unfold prunePresence
    cases mapLookup s.presence roomId with
    | none => exact ⟨[], rfl⟩
    | some m => exact ⟨_, rfl⟩
  · intro dir s roomId clientId payload now nowIso
    unfold updatePresenceBody
    rcases initRoom dir s roomId with ⟨s1, r⟩
    cases r with
    | none => exact ⟨[], rfl⟩
    | some st => exact ⟨_, rfl⟩

/-- C10 (code bug): neither error is ever produced — the call deadlocks
at the nested `initRoom` acquisition before any check runs.  The check
order the claim describes is the body's intent: past the nested await,
a stale `clientV` together with a non-existent card id yields the
version-conflict error, never the card-not-found error, because the
conflict check precedes the card lookup. -/
theorem claim10_code_bug :
    ¬ Settles nestedAcquisitionDeps 1 ∧
    applyOperationBody sampleDir sampleStore "R1"
        { type := "move", cardId := "zz", toZone := "field", clientV := some 5 }
      = (sampleStore, Except.error (OpError.versionConflict 0 sampleState)) ∧
    ∀ cid : String,
      (applyOperationBody sampleDir sampleStore "R1"
          { type := "move", cardId := "zz", toZone := "field", clientV := some 5 }).2
        ≠ Except.error (OpError.cardNotFound cid) := by
  refine ⟨nestedAcquisition_deadlocks, rfl, ?_⟩
  intro cid h
  injection h with h'
  exact OpError.noConfusion h'

end AttendCard
